import Mathlib

/-!
Verification of the SmartBackend assessment/readiness core against its
specification.  The embedded functions are translated from
`assessment_gui.py` (`grade_answer`, `calculate_week_readiness`,
`submit_answer`) and `performance_engine.py` (`calculate_metrics`).
Python floats are modelled as exact rationals (`ℚ`); Python's
`round(x, 2)` is modelled as decimal rounding half-to-even at two
decimal places.
-/

set_option maxRecDepth 2048

namespace SmartBackend

/-- Round-half-to-even of a rational to an integer, modelling Python's
banker's rounding used by the built-in `round`. -/
def roundHalfEven (x : ℚ) : ℤ :=
  if x - ⌊x⌋ < 1/2 then ⌊x⌋
  else if 1/2 < x - ⌊x⌋ then ⌊x⌋ + 1
  else if ⌊x⌋ % 2 = 0 then ⌊x⌋ else ⌊x⌋ + 1

/-- Python's `round(x, 2)`: round to two decimal places, ties to even. -/
def round2 (x : ℚ) : ℚ := (roundHalfEven (x * 100) : ℚ) / 100

/-- A Python value that may appear in a question's `"answer"` field:
an `int`, a `float`, or a `str`. -/
inductive PyVal where
  | vint (n : ℤ)
  | vfloat (q : ℚ)
  | vstr (s : String)
deriving DecidableEq, Repr

/-- `isinstance(expected, (int, float))` from `grade_answer`. -/
def PyVal.isNum : PyVal → Bool
  | .vint _ => true
  | .vfloat _ => true
  | .vstr _ => false

/-- `float(expected)` on a numeric value. -/
def PyVal.toRat : PyVal → ℚ
  | .vint n => (n : ℚ)
  | .vfloat q => q
  | .vstr _ => 0

/-- Multiplicity of `p` in `n`, with explicit fuel so the function is
structurally recursive and kernel-reducible.  Helper for `pyFloatRepr`. -/
def multOfAux : ℕ → ℕ → ℕ → ℕ
  | 0, _, _ => 0
  | fuel + 1, p, n =>
      if 2 ≤ p ∧ 2 ≤ n ∧ n % p = 0 then multOfAux fuel p (n / p) + 1 else 0

/-- Multiplicity of the prime `p` in `n`; fuel `n` always suffices since
every division step at least halves the argument. -/
def multOf (p n : ℕ) : ℕ := multOfAux n p n

/-- Left-pad a digit string with zeros to the given width.  Helper for
`pyFloatRepr`. -/
def padLeftZeros (k : ℕ) (s : String) : String :=
  String.mk (List.replicate (k - s.length) '0') ++ s

/-- Python's `str()` of a float, on the embedding's exact-rational float
values.  A Python float is a dyadic rational, so its shortest
round-tripping repr under the floats-as-exact-rationals idealisation is
its exact decimal expansion.  This function produces it: minimal
fractional digits with at least one (`str(80.0) = "80.0"`,
`str(2.5) = "2.5"`, `str(1.05) = "1.05"`), and Python's switch to
exponent notation when the decimal exponent is at least 16 or below -4
(`str(1e16) = "1e+16"`, `str(2.5e-5) = "2.5e-05"`, exponent signed and
zero-padded to two digits).  A denominator with a prime factor other
than 2 or 5 is not a Python float and cannot reach this function from
the program's data; that branch falls back to the raw rational text. -/
def pyFloatRepr (q : ℚ) : String :=
  let sign := if q < 0 then "-" else ""
  let a := multOf 2 q.den
  let b := multOf 5 q.den
  if q.den = 2 ^ a * 5 ^ b then
    let k := max a b
    let N := q.num.natAbs * 10 ^ k / q.den
    let full := toString N
    let stripped := String.mk ((full.toList.reverse.dropWhile (fun c => c = '0')).reverse)
    let digits := if stripped.isEmpty then "0" else stripped
    let E : ℤ := (full.length : ℤ) - 1 - (k : ℤ)
    if N = 0 then "0.0"
    else if 16 ≤ E ∨ E < -4 then
      let mant := if digits.length = 1 then digits
        else digits.take 1 ++ "." ++ digits.drop 1
      let esign := if E < 0 then "-" else "+"
      let eabs := toString E.natAbs
      let epad := if eabs.length < 2 then "0" ++ eabs else eabs
      sign ++ mant ++ "e" ++ esign ++ epad
    else if k = 0 then sign ++ full ++ ".0"
    else sign ++ toString (N / 10 ^ k) ++ "." ++ padLeftZeros k (toString (N % 10 ^ k))
  else toString q

/-- Python `str()` of an answer value: integers in decimal, floats via
`pyFloatRepr`, strings as themselves. -/
def pyStr : PyVal → String
  | .vint n => toString n
  | .vfloat q => pyFloatRepr q
  | .vstr s => s

/-- `s.strip().lower()` — the normalisation both sides of the
string-equality fallback in `grade_answer` undergo. -/
def normStr (s : String) : String := s.trim.toLower

/-- Continuation of a Python `digitpart`: `("_"? digit)*`, each
underscore followed by a digit.  Helper for `isDigitPart`. -/
def isDigitPartTail : List Char → Bool
  | [] => true
  | '_' :: c :: rest => c.isDigit && isDigitPartTail rest
  | c :: rest => c.isDigit && isDigitPartTail rest

/-- Python's `digitpart`: one or more ASCII digits with single
underscores allowed only between digits (`"1_000"` yes; `"_1"`, `"1_"`
and `"1__2"` no). -/
def isDigitPart (cs : List Char) : Bool :=
  match cs with
  | [] => false
  | c :: rest => c.isDigit && isDigitPartTail rest

/-- Numeric value of a digit run, skipping underscore separators. -/
def digitsOf (cs : List Char) : ℕ :=
  cs.foldl (fun n c => if c.isDigit then n * 10 + (c.toNat - '0'.toNat) else n) 0

/-- The mantissa of a Python float literal: `digitpart`,
`digitpart "." digitpart?` or `"." digitpart` — at least one digit
overall, so `"1."`, `".5"` and `"1.5"` parse but `"."` does not. -/
def parseMantissa (cs : List Char) : Option ℚ :=
  match cs.splitOn '.' with
  | [ip] => if isDigitPart ip then some ((digitsOf ip : ℚ)) else none
  | [ip, fp] =>
      if (ip.isEmpty || isDigitPart ip) && (fp.isEmpty || isDigitPart fp) &&
          (!ip.isEmpty || !fp.isEmpty) then
        some ((digitsOf ip : ℚ) +
          (digitsOf fp : ℚ) / (10 : ℚ) ^ (fp.filter Char.isDigit).length)
      else none
  | _ => none

/-- The exponent of a Python float literal: an optional sign followed by
a `digitpart`. -/
def parseExp (cs : List Char) : Option ℤ :=
  match cs with
  | '+' :: rest => if isDigitPart rest then some ((digitsOf rest : ℤ)) else none
  | '-' :: rest => if isDigitPart rest then some (-(digitsOf rest : ℤ)) else none
  | rest => if isDigitPart rest then some ((digitsOf rest : ℤ)) else none

/-- Python's `float(string)` on the embedding's rational float domain:
optional surrounding whitespace, optional sign, a mantissa and an
optional exponent marked by a case-insensitive `e` (so `"1e3"`,
`"1.5E-2"`, `"1_000.5"`, `".5"` and `"1."` parse).  `none` models the
`ValueError` Python raises on anything else (`"."`, `"-."`, `"5/2"`,
`"1e"`, `"1__2"`, the empty string).  The non-finite forms
`inf`/`infinity`/`nan` have no rational value and also yield `none`;
in `grade_answer` this routes them to the string fallback, which
returns the same `(false, auto)` the source's numeric path returns for
a non-finite submission against a finite expected answer, so the
embedded function's observable result is unaffected.  Digits are
ASCII, per the embedding's string model. -/
def parseFloat (s : String) : Option ℚ :=
  let t := (s.trim.toList).map Char.toLower
  let (sign, body) :=
    match t with
    | '-' :: cs => ((-1 : ℚ), cs)
    | '+' :: cs => ((1 : ℚ), cs)
    | cs => ((1 : ℚ), cs)
  match body.splitOn 'e' with
  | [m] => (parseMantissa m).map (fun q => sign * q)
  | [m, ex] =>
      match parseMantissa m, parseExp ex with
      | some q, some e => some (sign * q * (10 : ℚ) ^ e)
      | _, _ => none
  | _ => none

/-- The optional sympy capability: `avail` models `SYMPY_AVAILABLE`;
`eq a b` models `sp.simplify(sp.sympify(a) - sp.sympify(b)) == 0`,
with `none` standing for an exception raised while parsing or
simplifying. -/
structure SymEngine where
  avail : Bool
  eq : String → String → Option Bool

/-- A question record as consumed by `grade_answer` / `submit_answer`
(`question_bank.json` entries). -/
structure Question where
  question : String
  qtype : String
  options : List String
  answer : Option PyVal
  source : Option String
deriving Repr

/-- `grade_answer(q, user_answer)` from `assessment_gui.py` lines 56–78.
Returns the pair `(correct, grading_mode)`: `(none, "manual_review")`
when the question has no expected answer, otherwise `(some b, "auto")`
where `b` follows the numeric / symbolic / string-fallback comparison.
A `float` parse failure and a sympy failure both land on the
case-insensitive, whitespace-trimmed string comparison. -/
def grade_answer (sym : SymEngine) (q : Question) (user_answer : String) :
    Option Bool × String :=
  match q.answer with
  | none => (none, "manual_review")
  | some expected =>
      let fallback := normStr user_answer == normStr (pyStr expected)
      let correct :=
        if expected.isNum then
          match parseFloat user_answer with
          | some ua => decide (|ua - expected.toRat| < 1/1000000)
          | none => fallback
        else
          if sym.avail then
            match sym.eq (pyStr expected) user_answer with
            | some b => b
            | none => fallback
          else fallback
      (some correct, "auto")

/-- One entry of `answers_tracker["answers"]` as built in
`submit_answer`. -/
structure AnswerRecord where
  timestamp : String
  week : ℤ
  question_index : ℕ
  question : String
  user_answer : String
  correct : Option Bool
  grading : String
  source : Option String
deriving DecidableEq, Repr

/-- `calculate_week_readiness(week_num)` from `assessment_gui.py`
lines 80–88, with the module-global `answers_tracker["answers"]` passed
explicitly.  Filters the log to the week, returns `none` on an empty
filter, else `(correct / total) * 100` rounded to two decimals, where
`correct` counts auto-graded truthy-`correct` records and `total`
counts all records of the week. -/
def calculate_week_readiness (answers : List AnswerRecord) (week_num : ℤ) : Option ℚ :=
  let a := answers.filter (fun ans => ans.week == week_num)
  if a.isEmpty then none
  else
    let auto_gradable := a.filter (fun x => x.grading == "auto")
    let correct := (auto_gradable.filter (fun x => x.correct == some true)).length
    let total := a.length
    let score := ((correct : ℚ) / (total : ℚ)) * 100
    some (round2 score)

/-- The `readiness_scores.json` document: `week_scores` is an
insertion-ordered dict (modelled as an association list with distinct
keys in the reachable states) and `overall` its stored mean. -/
structure ReadinessScores where
  user_id : String
  week_scores : List (String × ℚ)
  overall : Option ℚ
deriving DecidableEq, Repr

/-- Python dict assignment `d[k] = v`: an existing key keeps its
position and gets the new value; a new key is appended at the end. -/
def dictSet (d : List (String × ℚ)) (k : String) (v : ℚ) : List (String × ℚ) :=
  if d.any (fun p => p.1 == k) then
    d.map (fun p => if p.1 == k then (k, v) else p)
  else d ++ [(k, v)]

/-- Python dict lookup `d.get(k)`. -/
def dictGet (d : List (String × ℚ)) (k : String) : Option ℚ :=
  (d.find? (fun p => p.1 == k)).map Prod.snd

/-- The score-update tail of `submit_answer` (`assessment_gui.py`
lines 262–268): recompute the week's readiness from the answer log;
when non-null, overwrite the week's entry and recompute `overall` as
the rounded mean of all stored week scores; when null, leave the store
untouched. -/
def update_readiness (answers : List AnswerRecord) (week_num : ℤ)
    (rs : ReadinessScores) : ReadinessScores :=
  match calculate_week_readiness answers week_num with
  | none => rs
  | some score =>
      let ws := dictSet rs.week_scores (toString week_num) score
      let vals := ws.map Prod.snd
      { rs with
        week_scores := ws
        overall := some (round2 (vals.sum / (vals.length : ℚ))) }

/-- `submit_answer` (`assessment_gui.py` lines 235–271), restricted to
its state effect: grade the submission, append the `AnswerRecord` to
the log, then run the score update.  GUI prompts, file writes and the
popup thread are I/O adapters outside the embedded state. -/
def submit_answer (sym : SymEngine) (timestamp : String) (week_num : ℤ)
    (question_index : ℕ) (q : Question) (user_ans : String)
    (answers : List AnswerRecord) (rs : ReadinessScores) :
    List AnswerRecord × ReadinessScores :=
  let (graded, grading_type) := grade_answer sym q user_ans
  let entry : AnswerRecord :=
    { timestamp := timestamp
      week := week_num
      question_index := question_index
      question := q.question
      user_answer := user_ans
      correct := graded
      grading := grading_type
      source := q.source }
  let answers2 := answers ++ [entry]
  (answers2, update_readiness answers2 week_num rs)

/-- `np.max` over a list of scores (the list is non-empty wherever the
source applies it). -/
def npMax : List ℚ → ℚ
  | [] => 0
  | x :: xs => xs.foldl max x

/-- `np.min` over a list of scores. -/
def npMin : List ℚ → ℚ
  | [] => 0
  | x :: xs => xs.foldl min x

/-- `np.argmax`: the index of the first occurrence of the maximum
(numpy documents that ties resolve to the first occurrence). -/
def npArgmax (l : List ℚ) : ℕ := l.findIdx (fun v => v == npMax l)

/-- `np.argmin`: the index of the first occurrence of the minimum. -/
def npArgmin (l : List ℚ) : ℕ := l.findIdx (fun v => v == npMin l)

/-- The metrics record returned by `calculate_metrics`. -/
structure Metrics where
  average_score : ℚ
  best_week : Option String
  worst_week : Option String
  exam_readiness : ℚ
  week_trend : List (String × ℚ)
deriving DecidableEq, Repr

/-- `calculate_metrics(readiness)` from `performance_engine.py` lines
19–53.  The input is the `week_scores` mapping (string keys, float
values), so the source's normalising comprehension
`{str(k): float(v) for k, v in readiness.items() if isinstance(v, (int, float, str))}`
is the identity on it: `str` fixes a string key, `float` fixes a float
value, and the `isinstance` guard passes every float. -/
def calculate_metrics (readiness : List (String × ℚ)) : Metrics :=
  if readiness.isEmpty then
    { average_score := 0
      best_week := none
      worst_week := none
      exam_readiness := 0
      week_trend := [] }
  else
    let scores := readiness
    let weeks := scores.map Prod.fst
    let values := scores.map Prod.snd
    let avg_score := values.sum / (values.length : ℚ)
    let max_score := npMax values
    let trend := scores
    let exam_readiness := round2 ((avg_score + (1/10) * max_score) / (11/10))
    let best_week := weeks.get? (npArgmax values)
    let worst_week := weeks.get? (npArgmin values)
    { average_score := round2 avg_score
      best_week := best_week
      worst_week := worst_week
      exam_readiness := exam_readiness
      week_trend := trend }

/-- A concrete auto-graded answer record, for concrete evaluations. -/
def mkAuto (w : ℤ) (i : ℕ) (b : Bool) : AnswerRecord :=
  ⟨"2025-01-01 10:00:00", w, i, "q", "a", some b, "auto", none⟩

/-- A concrete manual-review answer record. -/
def mkManual (w : ℤ) (i : ℕ) : AnswerRecord :=
  ⟨"2025-01-01 10:00:00", w, i, "q", "a", none, "manual_review", none⟩

/-- Answer log after week 1: four correct and one incorrect auto-graded
answers, so week 1 scores 80. -/
def sampleLog1 : List AnswerRecord :=
  [mkAuto 1 0 true, mkAuto 1 1 true, mkAuto 1 2 true, mkAuto 1 3 true,
   mkAuto 1 4 false]

/-- Answer log after week 2: week 1 as before, plus three correct and
two incorrect auto-graded answers for week 2, so week 2 scores 60. -/
def sampleLog2 : List AnswerRecord :=
  sampleLog1 ++
    [mkAuto 2 0 true, mkAuto 2 1 true, mkAuto 2 2 true, mkAuto 2 3 false,
     mkAuto 2 4 false]

/-- The freshly initialised readiness store. -/
def emptyStore : ReadinessScores := ⟨"student_001", [], none⟩

/-! ### Helper lemmas -/

/-- Half-even rounding never drops below zero on a non-negative input. -/
theorem roundHalfEven_nonneg {x : ℚ} (hx : 0 ≤ x) : 0 ≤ roundHalfEven x := by
  have h0 : (0 : ℤ) ≤ ⌊x⌋ := Int.floor_nonneg.mpr hx
  unfold roundHalfEven
  split_ifs <;> omega

/-- Half-even rounding never exceeds an integer bound on the input. -/
theorem roundHalfEven_le {x : ℚ} {B : ℤ} (hx : x ≤ B) : roundHalfEven x ≤ B := by
  have hf : ⌊x⌋ ≤ B := by
    have h := Int.floor_mono hx
    rwa [Int.floor_intCast] at h
  have hlt : ¬ x - ⌊x⌋ < 1/2 → ⌊x⌋ + 1 ≤ B := by
    intro h1
    rcases lt_or_eq_of_le hf with h | h
    · omega
    · exfalso
      apply h1
      have hc : ((⌊x⌋ : ℚ)) = (B : ℚ) := by exact_mod_cast h
      have hxB : x - (⌊x⌋ : ℚ) ≤ 0 := by rw [hc]; linarith
      linarith
  unfold roundHalfEven
  split_ifs with h1 h2 h3
  · exact hf
  · exact hlt h1
  · exact hf
  · exact hlt h1

/-- `round2` keeps a non-negative value non-negative. -/
theorem round2_nonneg {x : ℚ} (hx : 0 ≤ x) : 0 ≤ round2 x := by
  unfold round2
  have h : (0 : ℤ) ≤ roundHalfEven (x * 100) := roundHalfEven_nonneg (by linarith)
  have h2 : (0 : ℚ) ≤ (roundHalfEven (x * 100) : ℚ) := by exact_mod_cast h
  linarith

/-- `round2` keeps a value at most 100 at most 100. -/
theorem round2_le_100 {x : ℚ} (hx : x ≤ 100) : round2 x ≤ 100 := by
  unfold round2
  have h : roundHalfEven (x * 100) ≤ (10000 : ℤ) :=
    roundHalfEven_le (by push_cast; linarith)
  have h2 : (roundHalfEven (x * 100) : ℚ) ≤ 10000 := by exact_mod_cast h
  linarith

/-- `round2 x` is an exact two-decimal value: scaled by 100 it is an
integer. -/
theorem round2_den (x : ℚ) : (round2 x * 100).den = 1 := by
  unfold round2
  have : (roundHalfEven (x * 100) : ℚ) / 100 * 100 = (roundHalfEven (x * 100) : ℚ) := by
    field_simp
  rw [this, Rat.den_intCast]

/-- `find?` returns the element sitting at the index `findIdx` returns. -/
theorem find?_eq_get?_findIdx {α : Type} (p : α → Bool) (l : List α) :
    l.find? p = l.get? (l.findIdx p) := by
  induction l with
  | nil => rfl
  | cons a l ih =>
    cases hpa : p a
    · simp [List.findIdx_cons, hpa, ih]
    · simp [List.findIdx_cons, hpa]

/-- `findIdx` on a mapped list tests the composed predicate. -/
theorem findIdx_map {α β : Type} (f : α → β) (q : β → Bool) (l : List α) :
    (l.map f).findIdx q = l.findIdx (fun a => q (f a)) := by
  induction l with
  | nil => rfl
  | cons a l ih => simp [List.findIdx_cons, ih]

/-- Looking up the key just assigned by `dictSet` yields the new value. -/
theorem dictGet_dictSet_self (d : List (String × ℚ)) (k : String) (v : ℚ) :
    dictGet (dictSet d k v) k = some v := by
  unfold dictSet dictGet
  cases hany : d.any (fun p => p.1 == k)
  · rw [if_neg (by simp [hany]), List.find?_append]
    have hnone : d.find? (fun p => p.1 == k) = none :=
      List.find?_eq_none.mpr (by
        intro x hx
        exact List.any_eq_false.mp hany x hx)
    rw [hnone]
    simp
  · rw [if_pos (by simp [hany]), List.find?_map]
    have hcomp : ((fun p : String × ℚ => p.1 == k) ∘
        (fun p => if p.1 == k then (k, v) else p)) =
        fun p : String × ℚ => p.1 == k := by
      funext q
      by_cases hq : q.1 = k <;> simp [hq]
    rw [hcomp]
    obtain ⟨x, hx, hpx⟩ := List.any_eq_true.mp hany
    have hsome : (d.find? (fun p => p.1 == k)).isSome :=
      List.find?_isSome.mpr ⟨x, hx, hpx⟩
    obtain ⟨b, hb⟩ := Option.isSome_iff_exists.mp hsome
    rw [hb]
    have hbk : b.1 = k := by
      have := List.find?_some hb
      simpa using this
    simp [hbk]

/-- The three nested filters in `calculate_week_readiness` count exactly
the records of the week that are auto-graded with a true outcome. -/
theorem filter_week_auto_correct (l : List AnswerRecord) (w : ℤ) :
    ((l.filter (fun r => r.week == w)).filter
        (fun r => r.grading == "auto")).filter (fun r => r.correct == some true) =
      l.filter (fun r => r.week == w && (r.grading == "auto" && r.correct == some true)) := by
  simp only [List.filter_filter]
  apply List.filter_congr
  intro a _
  cases h1 : (a.week == w) <;> cases h2 : (a.grading == "auto") <;>
    cases h3 : (a.correct == some true) <;> simp [h1, h2, h3]

/-! ### Claim theorems -/

/-- C1: for every answer log and week `w` with at least one record for
`w`, `calculate_week_readiness` returns the count of auto-graded
records of the week with a true outcome, divided by the count of all
records of the week (auto and manual-review alike), times 100, rounded
to two decimals. -/
theorem C1_scoreForWeek (answers : List AnswerRecord) (w : ℤ)
    (h : answers.filter (fun r => r.week == w) ≠ []) :
    calculate_week_readiness answers w =
      some (round2
        ((((answers.filter (fun r => r.week == w &&
              (r.grading == "auto" && r.correct == some true))).length : ℚ) /
          ((answers.filter (fun r => r.week == w)).length : ℚ)) * 100)) := by
  simp only [calculate_week_readiness]
  rw [if_neg (by simpa [List.isEmpty_iff] using h), filter_week_auto_correct]

/-- C1 witness: a week holding exactly one correct auto-graded answer
and one manual-review answer scores 50, not 100. -/
theorem C1_scoreForWeek_witness :
    calculate_week_readiness [mkAuto 1 0 true, mkManual 1 1] 1 = some 50 := by
  have h := C1_scoreForWeek [mkAuto 1 0 true, mkManual 1 1] 1 (by decide)
  exact h.trans (by with_unfolding_all decide)

/-- C3: `grade_answer` yields `(none, "manual_review")` exactly when the
question has no expected answer, and yields mode `"auto"` whenever an
expected answer exists, for every symbolic-engine state and every
submission. -/
theorem C3_manual_review_iff (sym : SymEngine) (q : Question) (s : String) :
    (grade_answer sym q s = (none, "manual_review") ↔ q.answer = none) ∧
    (q.answer ≠ none → (grade_answer sym q s).2 = "auto") := by
  cases hq : q.answer with
  | none => simp [grade_answer, hq]
  | some v => simp [grade_answer, hq]

/-- C3 witness: a question without an expected answer goes to manual
review; one with an expected answer is graded in mode auto. -/
theorem C3_manual_review_iff_witness :
    grade_answer ⟨false, fun _ _ => none⟩ ⟨"q", "short", [], none, none⟩ "x" =
      (none, "manual_review") ∧
    (grade_answer ⟨false, fun _ _ => none⟩
      ⟨"q", "short", [], some (.vint 5), none⟩ "5").2 = "auto" := by
  constructor
  · exact (C3_manual_review_iff ⟨false, fun _ _ => none⟩
      ⟨"q", "short", [], none, none⟩ "x").1.mpr rfl
  · exact (C3_manual_review_iff ⟨false, fun _ _ => none⟩
      ⟨"q", "short", [], some (.vint 5), none⟩ "5").2 (by simp)

/-- C6: `calculate_metrics` on the empty score mapping returns exactly
the defined empty report. -/
theorem C6_empty_report :
    calculate_metrics [] =
      { average_score := 0, best_week := none, worst_week := none,
        exam_readiness := 0, week_trend := [] } := rfl

/-- C9: a week with no logged records gets a `none` score, and the
submission flow leaves the readiness store untouched whenever the
recomputed score is `none` — it never overwrites a stored score with
null. -/
theorem C9_null_guard (answers : List AnswerRecord) (w : ℤ) (rs : ReadinessScores) :
    (answers.filter (fun r => r.week == w) = [] →
      calculate_week_readiness answers w = none) ∧
    (calculate_week_readiness answers w = none →
      update_readiness answers w rs = rs) := by
  constructor
  · intro h
    simp [calculate_week_readiness, h]
  · intro h
    simp [update_readiness, h]

/-- C9 witness: with an empty log, week 3 has score `none` and an
existing stored score for week 1 survives the update unchanged. -/
theorem C9_null_guard_witness :
    calculate_week_readiness [] 3 = none ∧
    update_readiness [] 3 ⟨"student_001", [("1", 80)], some 80⟩ =
      ⟨"student_001", [("1", 80)], some 80⟩ := by
  have h := C9_null_guard [] 3 ⟨"student_001", [("1", 80)], some 80⟩
  exact ⟨h.1 rfl, h.2 (h.1 rfl)⟩

/-- C10: `calculate_metrics` hands the input score mapping back as
`week_trend` unmodified — same keys, same values, same order. -/
theorem C10_week_trend (readiness : List (String × ℚ)) :
    (calculate_metrics readiness).week_trend = readiness := by
  cases readiness with
  | nil => rfl
  | cons a l => rfl

/-- C2 counterexample: on the week scores 85.41, 42.67 and 10.2 the
engine returns exam_readiness 49.67, computed from the unrounded mean
46.09333…, while the claimed formula — which feeds the rounded
`average_score` 46.09 into the blend — yields 49.66. -/
theorem C2_counterexample :
    ¬ ((calculate_metrics [("1", 8541/100), ("2", 4267/100), ("3", 51/5)]).exam_readiness =
      round2 (((calculate_metrics [("1", 8541/100), ("2", 4267/100), ("3", 51/5)]).average_score +
        (1/10) * npMax ([("1", (8541:ℚ)/100), ("2", 4267/100), ("3", 51/5)].map Prod.snd)) /
        (11/10))) := by
  with_unfolding_all decide

/-- C2 (amended): for every non-empty week-score mapping, the returned
`exam_readiness` is `round2 ((mean + 0.1 * max) / 1.1)` computed from
the UNROUNDED arithmetic mean, while the returned `average_score` is
that mean rounded to two decimals; the blend does not reuse the rounded
field. -/
theorem C2_exam_readiness (r : List (String × ℚ)) (h : r ≠ []) :
    (calculate_metrics r).exam_readiness =
      round2 ((((r.map Prod.snd).sum / (((r.map Prod.snd).length : ℕ) : ℚ)) +
        (1/10) * npMax (r.map Prod.snd)) / (11/10)) ∧
    (calculate_metrics r).average_score =
      round2 ((r.map Prod.snd).sum / (((r.map Prod.snd).length : ℕ) : ℚ)) := by
  cases r with
  | nil => exact absurd rfl h
  | cons a l => exact ⟨rfl, rfl⟩

/-- C2 witness: `analyze({"1": 80, "2": 60})` reports average 70 and
exam readiness 70.91. -/
theorem C2_exam_readiness_witness :
    (calculate_metrics [("1", 80), ("2", 60)]).exam_readiness = 7091/100 ∧
    (calculate_metrics [("1", 80), ("2", 60)]).average_score = 70 := by
  have h := C2_exam_readiness [("1", 80), ("2", 60)] (by decide)
  exact ⟨h.1.trans (by norm_num [round2, roundHalfEven, npMax]),
         h.2.trans (by norm_num [round2, roundHalfEven, npMax])⟩

/-- C4: for a question whose expected answer is numeric, grading parses
the submission; on success the outcome is `|submitted − expected| < 1e-6`,
and on a parse failure the function does not fail but falls back to
case-insensitive, whitespace-trimmed string equality — in both cases
returning mode `"auto"` to the caller. -/
theorem C4_numeric_fallback (sym : SymEngine) (q : Question) (v : PyVal) (s : String)
    (hv : q.answer = some v) (hn : v.isNum = true) :
    (∀ ua, parseFloat s = some ua →
      grade_answer sym q s = (some (decide (|ua - v.toRat| < 1/1000000)), "auto")) ∧
    (parseFloat s = none →
      grade_answer sym q s = (some (normStr s == normStr (pyStr v)), "auto")) := by
  constructor
  · intro ua hua
    simp [grade_answer, hv, hn, hua]
  · intro hna
    simp [grade_answer, hv, hn, hna]

/-- C4 witness: the numeric path accepts `"5.0"` for expected `5` and
the exponent literal `"1e3"` for expected `1000`; the malformed
submissions `"abc"` and `"."` and the non-literal `"5/2"` are recovered
locally through the string fallback as incorrect auto-graded answers
(`"5/2"` is compared against `str(2.5) = "2.5"`) rather than raising. -/
theorem C4_numeric_fallback_witness :
    grade_answer ⟨false, fun _ _ => none⟩
      ⟨"q", "short", [], some (.vint 5), none⟩ "5.0" = (some true, "auto") ∧
    grade_answer ⟨false, fun _ _ => none⟩
      ⟨"q", "short", [], some (.vint 1000), none⟩ "1e3" = (some true, "auto") ∧
    grade_answer ⟨false, fun _ _ => none⟩
      ⟨"q", "short", [], some (.vfloat 2), none⟩ "abc" = (some false, "auto") ∧
    grade_answer ⟨false, fun _ _ => none⟩
      ⟨"q", "short", [], some (.vint 0), none⟩ "." = (some false, "auto") ∧
    grade_answer ⟨false, fun _ _ => none⟩
      ⟨"q", "short", [], some (.vfloat (5/2)), none⟩ "5/2" = (some false, "auto") := by
  refine ⟨?_, ?_, ?_, ?_, ?_⟩
  · have h := (C4_numeric_fallback ⟨false, fun _ _ => none⟩
      ⟨"q", "short", [], some (.vint 5), none⟩ (.vint 5) "5.0" rfl rfl).1 5
      (by with_unfolding_all decide)
    exact h.trans (by with_unfolding_all decide)
  · have h := (C4_numeric_fallback ⟨false, fun _ _ => none⟩
      ⟨"q", "short", [], some (.vint 1000), none⟩ (.vint 1000) "1e3" rfl rfl).1 1000
      (by with_unfolding_all decide)
    exact h.trans (by with_unfolding_all decide)
  · have h := (C4_numeric_fallback ⟨false, fun _ _ => none⟩
      ⟨"q", "short", [], some (.vfloat 2), none⟩ (.vfloat 2) "abc" rfl rfl).2
      (by with_unfolding_all decide)
    exact h.trans (by with_unfolding_all decide)
  · have h := (C4_numeric_fallback ⟨false, fun _ _ => none⟩
      ⟨"q", "short", [], some (.vint 0), none⟩ (.vint 0) "." rfl rfl).2
      (by with_unfolding_all decide)
    exact h.trans (by with_unfolding_all decide)
  · have h := (C4_numeric_fallback ⟨false, fun _ _ => none⟩
      ⟨"q", "short", [], some (.vfloat (5/2)), none⟩ (.vfloat (5/2)) "5/2" rfl rfl).2
      (by with_unfolding_all decide)
    exact h.trans (by with_unfolding_all decide)

/-- C5 counterexample: one manual-review answer for week 1 — so no
auto-graded answers exist — already makes the submission flow store a
week-1 score (the value 0), contradicting the claim that the entry
stays absent until an auto-graded answer exists. -/
theorem C5_counterexample :
    (update_readiness [mkManual 1 0] 1 emptyStore).week_scores = [("1", 0)] ∧
    ([mkManual 1 0].countP (fun r => r.grading == "auto") = 0) := by
  with_unfolding_all decide

/-- C5 (amended): the week score is absent exactly as long as no records
at all have been logged for the week (the store is then left untouched),
and whenever a score is present it lies in [0, 100] and is an exact
two-decimal value. -/
theorem C5_score_presence (answers : List AnswerRecord) (w : ℤ) (rs : ReadinessScores) :
    (answers.filter (fun r => r.week == w) = [] →
      calculate_week_readiness answers w = none ∧
        update_readiness answers w rs = rs) ∧
    (∀ v, calculate_week_readiness answers w = some v →
      0 ≤ v ∧ v ≤ 100 ∧ (v * 100).den = 1) := by
  constructor
  · intro h
    have hn : calculate_week_readiness answers w = none := by
      simp [calculate_week_readiness, h]
    exact ⟨hn, by simp [update_readiness, hn]⟩
  · intro v hv
    by_cases he : (answers.filter (fun r => r.week == w)).isEmpty
    · simp [calculate_week_readiness, he] at hv
    · have hfne : answers.filter (fun r => r.week == w) ≠ [] := by
        simpa [List.isEmpty_iff] using he
      simp only [calculate_week_readiness] at hv
      rw [if_neg (by simpa [List.isEmpty_iff] using hfne)] at hv
      have hveq : round2
          ((((((answers.filter (fun r => r.week == w)).filter
              (fun x => x.grading == "auto")).filter
              (fun x => x.correct == some true)).length : ℕ) : ℚ) /
            (((answers.filter (fun r => r.week == w)).length : ℕ) : ℚ) * 100) = v :=
        Option.some.inj hv
      have htpos : 0 < (answers.filter (fun r => r.week == w)).length :=
        List.length_pos.mpr hfne
      have hct : ((((answers.filter (fun r => r.week == w)).filter
          (fun x => x.grading == "auto")).filter
          (fun x => x.correct == some true)).length) ≤
          (answers.filter (fun r => r.week == w)).length :=
        le_trans (List.length_filter_le _ _) (List.length_filter_le _ _)
      rw [← hveq]
      have hx0 : (0 : ℚ) ≤
          ((((((answers.filter (fun r => r.week == w)).filter
            (fun x => x.grading == "auto")).filter
            (fun x => x.correct == some true)).length : ℕ) : ℚ) /
            (((answers.filter (fun r => r.week == w)).length : ℕ) : ℚ)) * 100 := by
        positivity
      have hx1 : ((((((answers.filter (fun r => r.week == w)).filter
            (fun x => x.grading == "auto")).filter
            (fun x => x.correct == some true)).length : ℕ) : ℚ) /
            (((answers.filter (fun r => r.week == w)).length : ℕ) : ℚ)) * 100 ≤ 100 := by
        have h1 : ((((((answers.filter (fun r => r.week == w)).filter
            (fun x => x.grading == "auto")).filter
            (fun x => x.correct == some true)).length : ℕ) : ℚ) /
            (((answers.filter (fun r => r.week == w)).length : ℕ) : ℚ)) ≤ 1 := by
          rw [div_le_one (by exact_mod_cast htpos)]
          exact_mod_cast hct
        linarith
      exact ⟨round2_nonneg hx0, round2_le_100 hx1, round2_den _⟩

/-- C5 witness: an empty log leaves week 1 unscored and the store
untouched, while a scored week (one correct auto answer plus one
manual-review answer, score 50) lands in [0, 100] with exactly two
decimals. -/
theorem C5_score_presence_witness :
    (calculate_week_readiness [] 1 = none ∧
      update_readiness [] 1 emptyStore = emptyStore) ∧
    (0 ≤ (50 : ℚ) ∧ (50 : ℚ) ≤ 100 ∧ ((50 : ℚ) * 100).den = 1) := by
  refine ⟨(C5_score_presence [] 1 emptyStore).1 rfl, ?_⟩
  exact (C5_score_presence [mkAuto 2 0 true, mkManual 2 1] 2 emptyStore).2 50
    (by with_unfolding_all decide)

/-- C7: for every non-empty score mapping, `best_week` is the first key
in mapping order whose score attains the maximum and `worst_week` the
first key attaining the minimum. -/
theorem C7_tie_break (r : List (String × ℚ)) (h : r ≠ []) :
    (calculate_metrics r).best_week =
      (r.find? (fun p => p.2 == npMax (r.map Prod.snd))).map Prod.fst ∧
    (calculate_metrics r).worst_week =
      (r.find? (fun p => p.2 == npMin (r.map Prod.snd))).map Prod.fst := by
  cases r with
  | nil => exact absurd rfl h
  | cons a l =>
    constructor
    · show ((a :: l).map Prod.fst).get?
          (npArgmax ((a :: l).map Prod.snd)) = _
      rw [npArgmax, findIdx_map, List.get?_map, ← find?_eq_get?_findIdx]
    · show ((a :: l).map Prod.fst).get?
          (npArgmin ((a :: l).map Prod.snd)) = _
      rw [npArgmin, findIdx_map, List.get?_map, ← find?_eq_get?_findIdx]

/-- C7 witness: on the tie `{"1": 50, "2": 50}` both `best_week` and
`worst_week` resolve to `"1"`, the first key in mapping order. -/
theorem C7_tie_break_witness :
    (calculate_metrics [("1", 50), ("2", 50)]).best_week = some "1" ∧
    (calculate_metrics [("1", 50), ("2", 50)]).worst_week = some "1" := by
  have h := C7_tie_break [("1", 50), ("2", 50)] (by decide)
  exact ⟨h.1.trans (by with_unfolding_all decide),
         h.2.trans (by with_unfolding_all decide)⟩

/-- C8: whenever a submission recomputes a non-null score for a week,
the store's entry for that week is overwritten with exactly that score
(last-write-wins) and the store-wide `overall` becomes the rounded
simple mean of all currently stored week scores. -/
theorem C8_store_update (answers : List AnswerRecord) (w : ℤ) (rs : ReadinessScores)
    (v : ℚ) (h : calculate_week_readiness answers w = some v) :
    dictGet (update_readiness answers w rs).week_scores (toString w) = some v ∧
    (update_readiness answers w rs).overall =
      some (round2 ((((update_readiness answers w rs).week_scores.map Prod.snd).sum) /
        ((((update_readiness answers w rs).week_scores.map Prod.snd).length : ℕ) : ℚ))) := by
  simp only [update_readiness, h]
  exact ⟨dictGet_dictSet_self _ _ _, trivial⟩

/-- C8 witness: scoring week 1 at 80 and then week 2 at 60 leaves the
store with week-2 entry 60 and `overall` 70, the simple mean. -/
theorem C8_store_update_witness :
    dictGet (update_readiness sampleLog2 2
        (update_readiness sampleLog1 1 emptyStore)).week_scores
      (toString (2 : ℤ)) = some 60 ∧
    (update_readiness sampleLog2 2
        (update_readiness sampleLog1 1 emptyStore)).overall = some 70 := by
  have h := C8_store_update sampleLog2 2 (update_readiness sampleLog1 1 emptyStore) 60
    (by with_unfolding_all decide)
  exact ⟨h.1, h.2.trans (by with_unfolding_all decide)⟩

end SmartBackend
